import Mathlib

/-!
Shallow embedding of `samples-generator/lib/createPointCloudTile.js`
(CesiumGS/3d-tiles-samples-generator).

Modelling conventions:
* JavaScript numbers are modelled by exact rationals `ℚ` (integer-valued
  quantities by `ℕ`/`ℤ`); `Math.floor` is `Int.floor`, `Math.ceil` is
  `Int.ceil`.  Byte buffers are `List ℤ` of byte values; `Buffer.alloc`
  zero fill is `List.replicate _ 0`.
* External collaborators (the seedable Cesium random source, the
  module-level simplex noise instance, `Math.cos`/`Math.sin`/`Math.PI`,
  `Cesium.AttributeCompression.octEncode`, IEEE float serialization
  `Buffer.writeFloatLE`, and the draco encoder module) are fields of an
  `Externals` record; the generator is proved correct for every
  instantiation of that record.  Random state is threaded explicitly.
* `Buffer.concat` is `List.append`; little-endian integer writes are
  `leBytes`.
-/

namespace PC

/-- `Cesium.ComponentDatatype` values used by this generator. -/
inductive ComponentType where
  | UNSIGNED_BYTE
  | UNSIGNED_SHORT
  | UNSIGNED_INT
  | FLOAT
  deriving DecidableEq

/-- `ComponentDatatype.getSizeInBytes`. -/
def ComponentType.sizeInBytes : ComponentType → ℕ
  | .UNSIGNED_BYTE => 1
  | .UNSIGNED_SHORT => 2
  | .UNSIGNED_INT => 4
  | .FLOAT => 4

/-- Attribute arity (`'SCALAR' | 'VEC2' | 'VEC3' | 'VEC4'`). -/
inductive AttrType where
  | SCALAR
  | VEC2
  | VEC3
  | VEC4
  deriving DecidableEq

/-- `numberOfComponentsForType`. -/
def numberOfComponentsForType : AttrType → ℕ
  | .SCALAR => 1
  | .VEC2 => 2
  | .VEC3 => 3
  | .VEC4 => 4

/-- A `Cesium.Cartesian3` with exact rational components. -/
structure Vec3 where
  x : ℚ
  y : ℚ
  z : ℚ
  deriving DecidableEq

def Vec3.zero : Vec3 := ⟨0, 0, 0⟩

def Vec3.sub (a b : Vec3) : Vec3 := ⟨a.x - b.x, a.y - b.y, a.z - b.z⟩

def Vec3.smul (c : ℚ) (v : Vec3) : Vec3 := ⟨c * v.x, c * v.y, c * v.z⟩

/-- Squared euclidean norm (`Cartesian3.magnitudeSquared`). -/
def normSq (v : Vec3) : ℚ := v.x ^ 2 + v.y ^ 2 + v.z ^ 2

/-- `Cesium.Cartesian3.normalize`, with the square root supplied as an
external real-arithmetic operation (`Math.sqrt` modelled abstractly,
since `ℚ` has no square root). -/
def normalizeWith (sqrt : ℚ → ℚ) (v : Vec3) : Vec3 :=
  let m := sqrt (normSq v)
  ⟨v.x / m, v.y / m, v.z / m⟩

/-- The per-point normal computation of `getPoints` (lines 482-486):
a zero local position falls back to the fixed normal (1,0,0); any other
position is normalized. -/
def localNormal (sqrt : ℚ → ℚ) (position : Vec3) : Vec3 :=
  if position = Vec3.zero then ⟨1, 0, 0⟩ else normalizeWith sqrt position

/-- A `Cesium.Color` with components in [0,1]. -/
structure Color where
  red : ℚ
  green : ℚ
  blue : ℚ
  alpha : ℚ
  deriving DecidableEq

/-- One attribute buffer as produced by the `get*` encoder functions:
a byte buffer plus `propertyName`, `componentType`, `type`. -/
structure AttributeBuf where
  buffer : List ℤ
  propertyName : String
  componentType : ComponentType
  type : AttrType
  deriving DecidableEq

/-- Little-endian byte serialization of an integer value into `width`
bytes (`Buffer.writeUInt8 / writeUInt16LE / writeUInt32LE` for in-range
values). -/
def leBytes (width : ℕ) (v : ℤ) : List ℤ :=
  (List.range width).map (fun k => v / (256 : ℤ) ^ k % 256)

/-- `getBatchIds` batch-length computation: `batchLength = max(batchIds[i]+1)`
starting from 0. -/
def batchLengthOf (batchIds : List ℕ) : ℕ :=
  batchIds.foldl (fun acc b => max (b + 1) acc) 0

/-- `getBatchIds` (lines 596-634): choose the narrowest unsigned integer
component type by `batchLength`, serialize batch ids at that width, and
return the attribute together with `batchLength`. -/
def getBatchIds (batchIds : List ℕ) : AttributeBuf × ℕ :=
  let batchLength := batchLengthOf batchIds
  if batchLength ≤ 256 then
    (⟨batchIds.flatMap (fun b => leBytes 1 (b : ℤ)), "BATCH_ID", .UNSIGNED_BYTE, .SCALAR⟩,
      batchLength)
  else if batchLength ≤ 65536 then
    (⟨batchIds.flatMap (fun b => leBytes 2 (b : ℤ)), "BATCH_ID", .UNSIGNED_SHORT, .SCALAR⟩,
      batchLength)
  else
    (⟨batchIds.flatMap (fun b => leBytes 4 (b : ℤ)), "BATCH_ID", .UNSIGNED_INT, .SCALAR⟩,
      batchLength)

/-- `getColorsRGB` (lines 636-654): three bytes per color, each channel
scaled by 255 and floored. -/
def getColorsRGB (colors : List Color) : AttributeBuf :=
  ⟨colors.flatMap (fun c => [⌊c.red * 255⌋, ⌊c.green * 255⌋, ⌊c.blue * 255⌋]),
    "RGB", .UNSIGNED_BYTE, .VEC3⟩

/-- The alpha byte written by `getColorsRGBA` (line 664): scaled by 128,
not 255. -/
def alphaByte (alpha : ℚ) : ℤ := ⌊alpha * 128⌋

/-- `getColorsRGBA` (lines 656-676): four bytes per color; red, green,
blue scaled by 255, alpha scaled by 128. -/
def getColorsRGBA (colors : List Color) : AttributeBuf :=
  ⟨colors.flatMap
      (fun c => [⌊c.red * 255⌋, ⌊c.green * 255⌋, ⌊c.blue * 255⌋, alphaByte c.alpha]),
    "RGBA", .UNSIGNED_BYTE, .VEC4⟩

/-- The 5/6/5 packing `(r << 11) + (g << 5) + b` of `getColorsRGB565`
(line 686). -/
def pack565 (r g b : ℤ) : ℤ := r * 2048 + g * 32 + b

/-- `getColorsRGB565` (lines 678-695): one UNSIGNED_SHORT per color,
packing floor(red*31), floor(green*63), floor(blue*31) as 5/6/5 bits. -/
def getColorsRGB565 (colors : List Color) : AttributeBuf :=
  ⟨colors.flatMap
      (fun c => leBytes 2 (pack565 ⌊c.red * 31⌋ ⌊c.green * 63⌋ ⌊c.blue * 31⌋)),
    "RGB565", .UNSIGNED_SHORT, .SCALAR⟩

/-! ## Alignment-aware buffer assembler (the two descriptor loops, lines 170-203) -/

/-- The offset rule of the assembly loops (lines 177, 194):
`Math.ceil(length / alignment) * alignment`, in integer arithmetic
(for positive `a` the ceiling of `len / a` is `(len + a - 1) / a`;
`alignUp_eq_ceil` below proves this equal to the rational ceiling
formula of the source). -/
def alignUp (len a : ℕ) : ℕ := (len + a - 1) / a * a

/-- One table-descriptor entry (`{byteOffset, componentType, type}`); the
feature table omits `componentType` except for BATCH_ID, and omits
`type`, which is modelled with `Option`. -/
structure TableEntry where
  name : String
  byteOffset : ℕ
  componentType : Option ComponentType
  type : Option AttrType
  deriving DecidableEq

/-- The common shape of the two assembly loops (lines 170-185 for the
feature table, 187-203 for the batch table): fold the attribute list
into the growing binary, skipping attributes whose names are covered by
a draco compression result (those record byteOffset 0), and otherwise
padding with zero bytes up to the component-size alignment before
appending.  Returns the final binary together with the recorded byte
offset of each attribute, in attribute order. -/
def assembleSection (skip : List String) (binary : List ℤ) :
    List AttributeBuf → List ℤ × List ℕ
  | [] => (binary, [])
  | p :: ps =>
    if p.propertyName ∈ skip then
      let rest := assembleSection skip binary ps
      (rest.1, 0 :: rest.2)
    else
      let a := p.componentType.sizeInBytes
      let offset := alignUp binary.length a
      let rest :=
        assembleSection skip
          (binary ++ List.replicate (offset - binary.length) (0 : ℤ) ++ p.buffer) ps
      (rest.1, offset :: rest.2)

/-- The total number of zero padding bytes the alignment rule inserts
when assembling `props` onto a section that currently holds `len`
bytes. -/
def sectionPadding (skip : List String) (len : ℕ) : List AttributeBuf → ℕ
  | [] => 0
  | p :: ps =>
    if p.propertyName ∈ skip then sectionPadding skip len ps
    else
      let offset := alignUp len p.componentType.sizeInBytes
      (offset - len) + sectionPadding skip (offset + p.buffer.length) ps

/-- Sum of the byte lengths of the attributes actually appended (those
not consumed by compression). -/
def appendedBytes (skip : List String) (props : List AttributeBuf) : ℕ :=
  ((props.filter (fun p => p.propertyName ∉ skip)).map
      (fun p => p.buffer.length)).sum

/-! ## Geometry compression adapter (`dracoEncode`, lines 272-400) -/

/-- `getPropertyByName` (lines 340-344). -/
def getPropertyByName (properties : List AttributeBuf) (name : String) :
    Option AttributeBuf :=
  properties.find? (fun p => p.propertyName == name)

/-- The `dracoProperties` list built at lines 347-355: all feature-table
properties when `dracoSemantics` is undefined, otherwise a lookup of
each requested semantic (a name that matches nothing yields an
`undefined` array entry, modelled as `none`), and always all batch-table
properties. -/
def dracoSelectedProperties (dracoSemantics : Option (List String))
    (featureTableProperties batchTableProperties : List AttributeBuf) :
    List (Option AttributeBuf) :=
  (match dracoSemantics with
    | none => featureTableProperties.map some
    | some ss => ss.map (fun s => getPropertyByName featureTableProperties s)) ++
    batchTableProperties.map some

/-- The encoding-method decision of `dracoEncode` (lines 357-362):
sequential (order-preserving) encoding is used when NORMAL is among the
selected properties, or when the selected list is shorter than the full
property list.  (A JS `undefined` entry would make the NORMAL lookup
throw; the model treats such an entry as not being NORMAL.) -/
def dracoPreserveOrder (dracoSemantics : Option (List String))
    (featureTableProperties batchTableProperties : List AttributeBuf) : Bool :=
  let ps := dracoSelectedProperties dracoSemantics featureTableProperties
    batchTableProperties
  let encodeNormals :=
    (ps.find? (fun p? => (p?.map (fun p => p.propertyName == "NORMAL")).getD false)).isSome
  let hasUncompressedAttributes :=
    decide (ps.length < featureTableProperties.length + batchTableProperties.length)
  encodeNormals || hasUncompressedAttributes

/-- The external collaborators of the generator, threaded explicitly:
`σ` is the state of the module-global seedable random source
(`CesiumMath`).  `seedZero` is the state produced by
`CesiumMath.setRandomNumberSeed(0)`; `next` is
`CesiumMath.nextRandomNumber`; `fromRandom` is `Cesium.Color.fromRandom`
(which consumes random state); `noise4D` is the module-level
`simplex.noise4D` instance, created once at module load and constant
thereafter; `octEncode` is `AttributeCompression.octEncode`; `floatLE`
is the IEEE-754 little-endian serialization behind
`Buffer.writeFloatLE`; `encoder` is the draco encoder module call
`EncodePointCloudToDracoBuffer` plus the `GetValue` accessor, returning
the encoded length and the byte stream. -/
structure Externals (σ : Type) where
  seedZero : σ
  next : σ → ℚ × σ
  fromRandom : σ → Color × σ
  noise4D : ℚ → ℚ → ℚ → ℚ → ℚ
  cos : ℚ → ℚ
  sin : ℚ → ℚ
  sqrt : ℚ → ℚ
  pi : ℚ
  octEncode : Vec3 → ℤ × ℤ
  floatLE : ℚ → List ℤ
  encoder : List AttributeBuf → ℕ → Bool → ℤ × (ℕ → ℤ)

/-- Result of `dracoEncodeProperties`: the encoded blob and the
per-attribute compression stream ids. -/
structure EncodedResult where
  buffer : List ℤ
  attributeIds : List (String × ℕ)
  deriving DecidableEq

/-- `dracoEncodeProperties` (lines 286-338): add every property to the
point cloud builder (the external builder hands back sequential
attribute ids, modelled as the insertion index), invoke the external
encoder, fail when it reports a non-positive encoded length, and
otherwise copy out exactly `encodedLength` bytes. -/
def dracoEncodeProperties {σ : Type} (E : Externals σ) (pointsLength : ℕ)
    (properties : List AttributeBuf) (preserveOrder : Bool) :
    Except String EncodedResult :=
  if (E.encoder properties pointsLength preserveOrder).1 ≤ 0 then
    Except.error "Error: Encoding Failed."
  else
    Except.ok
      ⟨(List.range (E.encoder properties pointsLength preserveOrder).1.toNat).map
          (E.encoder properties pointsLength preserveOrder).2,
        properties.enum.map (fun ip => (ip.2.propertyName, ip.1))⟩

/-- The `3DTILES_draco_point_compression` JSON object placed under the
feature table (lines 368-372). -/
structure DracoFtJson where
  properties : List (String × ℕ)
  byteOffset : ℕ
  byteLength : ℕ
  deriving DecidableEq

/-- The `3DTILES_draco_point_compression` JSON object placed under the
batch table (lines 373-375). -/
structure DracoBtJson where
  properties : List (String × ℕ)
  deriving DecidableEq

/-- `dracoEncode` (lines 346-400).  Selects the properties to compress,
decides the encoding order, runs the encoder, and splits the attribute
ids into feature-table and batch-table JSON.  (JS `undefined` entries
produced by unknown semantics are dropped by `reduceOption`; in the real
code such an entry crashes the call, so valid configurations have all
entries defined.  The final `Object.keys(...).length === 0` checks at
lines 388-393 can never fire because both JSON objects always own keys,
so both objects are always defined.) -/
def dracoEncode {σ : Type} (E : Externals σ) (pointsLength : ℕ)
    (dracoSemantics : Option (List String))
    (featureTableProperties batchTableProperties : List AttributeBuf) :
    Except String (List ℤ × DracoFtJson × DracoBtJson) :=
  let dracoProperties :=
    (dracoSelectedProperties dracoSemantics featureTableProperties
      batchTableProperties).reduceOption
  let preserveOrder := dracoPreserveOrder dracoSemantics featureTableProperties
    batchTableProperties
  match dracoEncodeProperties E pointsLength dracoProperties preserveOrder with
  | Except.error e => Except.error e
  | Except.ok r =>
    Except.ok (r.buffer,
      ⟨r.attributeIds.filter
          (fun p => (getPropertyByName featureTableProperties p.1).isSome),
        0, r.buffer.length⟩,
      ⟨r.attributeIds.filter
          (fun p => (getPropertyByName batchTableProperties p.1).isSome)⟩)

/-! ## Procedural point source (`getPosition`, shape/color functions, `getPoints`) -/

/-- Exact-arithmetic model of `Math.round(Math.pow(pointsLength, 1/3))`
(line 404): the nearest natural number to the real cube root of `n`,
rounding halves up.  `w = round(n^(1/3))` iff `(2w-1)^3 ≤ 8n < (2w+1)^3`,
so the rounded value is the number of naturals `k` with
`(2k+1)^3 ≤ 8n`. -/
def cbrtRound (n : ℕ) : ℕ :=
  ((List.range (n + 1)).filter (fun k => (2 * k + 1) ^ 3 ≤ 8 * n)).length

/-- `getPosition` (lines 402-414): map index `i` to a lattice coordinate
in the unit cube centered at the origin.  (`ℚ` division by zero yields 0
where JS would yield Infinity/NaN for `width ≤ 1`; no claim depends on
that degenerate case.) -/
def getPosition (i n : ℕ) : Vec3 :=
  let width : ℚ := (cbrtRound n : ℕ)
  let z : ℚ := ((⌊(i : ℚ) / (width * width)⌋ : ℤ) : ℚ)
  let y : ℚ := ((⌊((i : ℚ) - z * width * width) / width⌋ : ℤ) : ℚ)
  let x : ℚ := (i : ℚ) - width * (y + width * z)
  ⟨x / (width - 1) - 1 / 2, y / (width - 1) - 1 / 2, z / (width - 1) - 1 / 2⟩

/-- `boxFunction` (lines 416-420). -/
def boxFunction (i n : ℕ) (radius : ℚ) : Vec3 :=
  Vec3.smul radius (getPosition i n)

/-- `sphereFunction` (lines 422-429): two sequential random draws per
point (theta first, then phi). -/
def sphereFunction {σ : Type} (E : Externals σ) (radius : ℚ) (s : σ) : Vec3 × σ :=
  let d1 := E.next s
  let theta := d1.1 * 2 * E.pi
  let d2 := E.next d1.2
  let phi := d2.1 * E.pi - E.pi / 2
  (⟨radius * E.cos theta * E.cos phi,
    radius * E.sin phi,
    radius * E.sin theta * E.cos phi⟩, d2.2)

/-- `options.shape` (validated values only; an unrecognized string would
leave `shapeFunction` undefined and crash later). -/
inductive Shape where
  | sphere
  | box
  deriving DecidableEq

/-- `options.color` strategies. -/
inductive ColorStrategy where
  | random
  | gradient
  | noise
  deriving DecidableEq

/-- `options.colorMode` values. -/
inductive ColorMode where
  | rgb
  | rgba
  | rgb565
  | constant
  | noColor
  deriving DecidableEq

/-- `gradientFunction` (lines 435-440). -/
def gradientFunction (position : Vec3) : Color :=
  ⟨position.x + 1 / 2, position.y + 1 / 2, position.z + 1 / 2, 1⟩

/-- `getNoise` (lines 442-445): absolute value of the module-level 4D
simplex noise. -/
def getNoise {σ : Type} (E : Externals σ) (position : Vec3) (time : ℚ) : ℚ :=
  |E.noise4D position.x position.y position.z time|

/-- Dispatch of `colorFunction` (lines 87-94) applied per point: `random`
consumes random state via `Color.fromRandom`; `gradient` and `noise` are
pure. -/
def applyColorFunction {σ : Type} (E : Externals σ) (strategy : ColorStrategy)
    (time : ℚ) (unitPosition : Vec3) (s : σ) : Color × σ :=
  match strategy with
  | .random => E.fromRandom s
  | .gradient => (gradientFunction unitPosition, s)
  | .noise =>
    let n := getNoise E unitPosition time
    (⟨n, n, n, n⟩, s)

/-- `getBatchId` (lines 454-461): the 3-bit octant code
`(x << 2) | (y << 1) | z` with a 0 bit for a positive axis value. -/
def getBatchId (position : Vec3) : ℕ :=
  (if position.x > 0 then 0 else 1) * 4 +
    (if position.y > 0 then 0 else 1) * 2 +
    (if position.z > 0 then 0 else 1)

/-- The `Cesium.Matrix4` operations the generator uses, modelled as an
abstract transform: `pointMap` is `Matrix4.multiplyByPoint transform`,
`invTransposeVec` is `Matrix4.multiplyByPointAsVector` with the
inverse-transpose computed at lines 467-469, and `translation` is
`Matrix4.getTranslation transform`. -/
structure TransformM where
  pointMap : Vec3 → Vec3
  invTransposeVec : Vec3 → Vec3
  translation : Vec3

/-- The identity transform (`Matrix4.IDENTITY`). -/
def identityTransform : TransformM := ⟨id, id, Vec3.zero⟩

/-- The raw per-point samples accumulated by the loop of `getPoints`
(lines 478-504). -/
structure RawPoints where
  positions : List Vec3
  normals : List Vec3
  batchIds : List ℕ
  colors : List Color
  noiseValues : List ℚ

/-- The body of the `getPoints` loop, generating points for indices
`i, i+1, …, i+k-1` while threading random state.  Per point: shape
position (may draw), local normal with zero fallback, octant batch id,
color (may draw), noise value, then world transform, normal
re-normalization, and the relative-to-center subtraction. -/
def pointsLoop {σ : Type} (E : Externals σ) (n : ℕ) (radius : ℚ) (shape : Shape)
    (strategy : ColorStrategy) (time : ℚ) (subtractCenter : Bool)
    (tr : TransformM) : ℕ → ℕ → σ → RawPoints × σ
  | _, 0, s => (⟨[], [], [], [], []⟩, s)
  | i, k + 1, s =>
    let unitPosition := getPosition i n
    let ps : Vec3 × σ :=
      match shape with
      | .sphere => sphereFunction E radius s
      | .box => (boxFunction i n radius, s)
    let position := ps.1
    let normal := localNormal E.sqrt position
    let batchId := getBatchId position
    let cs := applyColorFunction E strategy time unitPosition ps.2
    let noise := getNoise E unitPosition time
    let position2 := tr.pointMap position
    let normal2 := normalizeWith E.sqrt (tr.invTransposeVec normal)
    let position3 := if subtractCenter then Vec3.sub position2 tr.translation
      else position2
    let rest := pointsLoop E n radius shape strategy time subtractCenter tr
      (i + 1) k cs.2
    (⟨position3 :: rest.1.positions, normal2 :: rest.1.normals,
      batchId :: rest.1.batchIds, cs.1 :: rest.1.colors,
      noise :: rest.1.noiseValues⟩, rest.2)

/-- `getPositions` (lines 520-535): FLOAT VEC3, written with
`writeFloatLE`. -/
def getPositions {σ : Type} (E : Externals σ) (positions : List Vec3) :
    AttributeBuf :=
  ⟨positions.flatMap (fun p => E.floatLE p.x ++ E.floatLE p.y ++ E.floatLE p.z),
    "POSITION", .FLOAT, .VEC3⟩

/-- `getPositionsQuantized` (lines 537-559): UNSIGNED_SHORT VEC3 scaled
linearly from `[-radius, radius]` to `[0, 65535]`; the fractional scaled
value is truncated by the typed-array write (`Int.floor` for the
non-negative in-range values). -/
def getPositionsQuantized (positions : List Vec3) (radius : ℚ) : AttributeBuf :=
  let min : ℚ := -radius
  let range : ℚ := 2 ^ 16 - 1
  let scale : ℚ := radius - min
  ⟨positions.flatMap (fun p =>
      leBytes 2 ⌊(p.x - min) * range / scale⌋ ++
        leBytes 2 ⌊(p.y - min) * range / scale⌋ ++
        leBytes 2 ⌊(p.z - min) * range / scale⌋),
    "POSITION_QUANTIZED", .UNSIGNED_SHORT, .VEC3⟩

/-- `getNormals` (lines 561-576). -/
def getNormals {σ : Type} (E : Externals σ) (normals : List Vec3) : AttributeBuf :=
  ⟨normals.flatMap (fun v => E.floatLE v.x ++ E.floatLE v.y ++ E.floatLE v.z),
    "NORMAL", .FLOAT, .VEC3⟩

/-- `getNormalsOctEncoded` (lines 580-594). -/
def getNormalsOctEncoded {σ : Type} (E : Externals σ) (normals : List Vec3) :
    AttributeBuf :=
  ⟨normals.flatMap (fun v => [(E.octEncode v).1, (E.octEncode v).2]),
    "NORMAL_OCT16P", .UNSIGNED_BYTE, .VEC2⟩

/-- The attributes returned by `getPoints` (lines 511-517). -/
structure PointsResult where
  positions : AttributeBuf
  normals : AttributeBuf
  batchIds : AttributeBuf
  batchLength : ℕ
  colors : Option AttributeBuf
  noiseValues : List ℚ

/-- `getPoints` (lines 466-518): generate raw samples, then encode the
position / normal / batch-id / color attributes.  `colorMode` is the
effective color mode; `constant` and `noColor` leave the color attribute
undefined. -/
def getPoints {σ : Type} (E : Externals σ) (pointsLength : ℕ) (radius : ℚ)
    (colorMode : ColorMode) (strategy : ColorStrategy) (shape : Shape)
    (quantizePositions octEncodeNormals subtractCenter : Bool)
    (tr : TransformM) (time : ℚ) (s : σ) : PointsResult × σ :=
  let raw := pointsLoop E pointsLength radius shape strategy time subtractCenter
    tr 0 pointsLength s
  let positionAttribute :=
    if quantizePositions then getPositionsQuantized raw.1.positions radius
    else getPositions E raw.1.positions
  let normalAttribute :=
    if octEncodeNormals then getNormalsOctEncoded E raw.1.normals
    else getNormals E raw.1.normals
  let bid := getBatchIds raw.1.batchIds
  let colorAttribute : Option AttributeBuf :=
    match colorMode with
    | .rgb => some (getColorsRGB raw.1.colors)
    | .rgba => some (getColorsRGBA raw.1.colors)
    | .rgb565 => some (getColorsRGB565 raw.1.colors)
    | .constant => none
    | .noColor => none
  (⟨positionAttribute, normalAttribute, bid.1, bid.2, colorAttribute,
    raw.1.noiseValues⟩, raw.2)

/-! ## Batch-table property generators -/

/-- The loop of `getPerPointBatchTableProperties` (lines 740-748):
per point, write the noise value as temperature, draw one random number
for the secondary color, and the point index as a 16-bit id. -/
def perPointLoop {σ : Type} (E : Externals σ) :
    ℕ → List ℚ → σ → (List ℤ × List ℤ × List ℤ) × σ
  | _, [], s => (([], [], []), s)
  | i, noise :: rest, s =>
    let d := E.next s
    let r := perPointLoop E (i + 1) rest d.2
    ((E.floatLE noise ++ r.1.1,
      (E.floatLE d.1 ++ E.floatLE 0 ++ E.floatLE 0) ++ r.1.2.1,
      leBytes 2 (i : ℤ) ++ r.1.2.2), r.2)

/-- `getPerPointBatchTableProperties` (lines 734-770). -/
def getPerPointBatchTableProperties {σ : Type} (E : Externals σ)
    (noiseValues : List ℚ) (s : σ) : List AttributeBuf × σ :=
  let r := perPointLoop E 0 noiseValues s
  ([⟨r.1.1, "temperature", .FLOAT, .SCALAR⟩,
    ⟨r.1.2.1, "secondaryColor", .FLOAT, .VEC3⟩,
    ⟨r.1.2.2, "id", .UNSIGNED_SHORT, .SCALAR⟩], r.2)

/-- The loop of `getBatchTableForBatchedPoints` (lines 717-723): per
batch, a name string, three random dimension floats, and a 32-bit id. -/
def batchedLoop {σ : Type} (E : Externals σ) :
    ℕ → ℕ → σ → (List String × List ℤ × List ℤ) × σ
  | _, 0, s => (([], [], []), s)
  | i, k + 1, s =>
    let d1 := E.next s
    let d2 := E.next d1.2
    let d3 := E.next d2.2
    let r := batchedLoop E (i + 1) k d3.2
    ((("section" ++ toString i) :: r.1.1,
      (E.floatLE d1.1 ++ E.floatLE d2.1 ++ E.floatLE d3.1) ++ r.1.2.1,
      leBytes 4 (i : ℤ) ++ r.1.2.2), r.2)

/-- The batch-table JSON: either the per-point property descriptors with
an optional draco extension, or (when `batched`) the replacement object
of `getBatchTableForBatchedPoints` with its `name` array. -/
structure BatchTableJson where
  properties : List TableEntry
  extensions : Option DracoBtJson
  batchedNames : Option (List String)
  deriving DecidableEq

/-- `getBatchTableForBatchedPoints` (lines 697-732): per-batch name,
dimensions and id properties; dimensions at offset 0, ids directly after
the dimensions buffer, no padding. -/
def getBatchTableForBatchedPoints {σ : Type} (E : Externals σ) (batchLength : ℕ)
    (s : σ) : (BatchTableJson × List ℤ) × σ :=
  let r := batchedLoop E 0 batchLength s
  ((⟨[⟨"dimensions", 0, some .FLOAT, some .VEC3⟩,
      ⟨"id", r.1.2.1.length, some .UNSIGNED_INT, some .SCALAR⟩],
    none, some r.1.1⟩,
    r.1.2.1 ++ r.1.2.2), r.2)

/-! ## Options, table descriptors and the top-level generator -/

/-- The options object of `createPointCloudTile` after `defaultValue`
resolution (lines 56-71), restricted to recognized enum values. -/
structure Options where
  tileWidth : ℚ := 10
  transform : TransformM := identityTransform
  pointsLength : ℕ := 1000
  colorMode : ColorMode := .rgb
  color : ColorStrategy := .random
  shape : Shape := .box
  generateNormals : Bool := false
  draco : Bool := false
  dracoSemantics : Option (List String) := none
  octEncodeNormals : Bool := false
  quantizePositions : Bool := false
  batched : Bool := false
  perPointProperties : Bool := false
  relativeToCenter : Bool := true
  time : ℚ := 0

/-- Line 66: oct encoding is dropped when draco compression is active. -/
def effectiveOctEncode (o : Options) : Bool := o.octEncodeNormals && !o.draco

/-- Line 67: position quantization is dropped when draco compression is
active. -/
def effectiveQuantize (o : Options) : Bool := o.quantizePositions && !o.draco

/-- Lines 73-75: rgb565 color mode is silently replaced by rgb when
draco compression is active. -/
def effectiveColorMode (o : Options) : ColorMode :=
  if o.colorMode = .rgb565 ∧ o.draco then .rgb else o.colorMode

/-- The feature-table JSON: per-attribute entries plus the top-level
scalar fields of lines 205-224 and the draco extension of lines
149-153. -/
structure FeatureTableJson where
  properties : List TableEntry
  POINTS_LENGTH : ℕ
  CONSTANT_RGBA : Option (List ℕ)
  QUANTIZED_VOLUME_SCALE : Option (List ℚ)
  QUANTIZED_VOLUME_OFFSET : Option (List ℚ)
  RTC_CENTER : Option (List ℚ)
  BATCH_LENGTH : Option ℕ
  extensions : Option DracoFtJson
  deriving DecidableEq

/-- The value object returned by `createPointCloudTile` (the four
sections handed to `createPnts`, plus `extensionsUsed`). -/
structure Output where
  featureTableJson : FeatureTableJson
  featureTableBinary : List ℤ
  batchTableJson : BatchTableJson
  batchTableBinary : List ℤ
  extensionsUsed : Option (List String)
  deriving DecidableEq

/-- Feature-table descriptor entries from the assembled offsets (lines
181-184): `componentType` is recorded only for BATCH_ID. -/
def ftEntries (props : List AttributeBuf) (offsets : List ℕ) : List TableEntry :=
  (props.zip offsets).map (fun po =>
    ⟨po.1.propertyName, po.2,
      if po.1.propertyName == "BATCH_ID" then some po.1.componentType else none,
      none⟩)

/-- Batch-table descriptor entries from the assembled offsets (lines
198-202): `componentType` and `type` are always recorded. -/
def btEntries (props : List AttributeBuf) (offsets : List ℕ) : List TableEntry :=
  (props.zip offsets).map (fun po =>
    ⟨po.1.propertyName, po.2, some po.1.componentType, some po.1.type⟩)

/-- The feature-table property list of lines 115-124: positions, then
colors when defined, then normals when requested, then batch ids when
batched. -/
def featureTablePropsOf (o : Options) (pts : PointsResult) : List AttributeBuf :=
  [pts.positions] ++
    (match pts.colors with | some c => [c] | none => []) ++
    (if o.generateNormals then [pts.normals] else []) ++
    (if o.batched then [pts.batchIds] else [])

/-- The top-level scalar fields of the feature-table JSON (lines
205-224). -/
def buildFeatureTableJson (o : Options) (entries : List TableEntry)
    (dracoFt : Option DracoFtJson) (batchLength : ℕ) : FeatureTableJson :=
  let radius := o.tileWidth / 2
  let center := o.transform.translation
  { properties := entries
    POINTS_LENGTH := o.pointsLength
    CONSTANT_RGBA :=
      if effectiveColorMode o = .constant then some [255, 255, 0, 51] else none
    QUANTIZED_VOLUME_SCALE :=
      if effectiveQuantize o then some [o.tileWidth, o.tileWidth, o.tileWidth]
      else none
    QUANTIZED_VOLUME_OFFSET :=
      if effectiveQuantize o then
        some [center.x - radius, center.y - radius, center.z - radius]
      else none
    RTC_CENTER :=
      if effectiveQuantize o then none
      else if o.relativeToCenter then some [center.x, center.y, center.z]
      else none
    BATCH_LENGTH := if o.batched then some batchLength else none
    extensions := dracoFt }

/-- Wiring of `getPoints` inside `createPointCloudTile` (line 108), with
the generation starting from the freshly re-seeded random state of line
54. -/
def pipelinePoints {σ : Type} (E : Externals σ) (o : Options) : PointsResult × σ :=
  getPoints E o.pointsLength (o.tileWidth / 2) (effectiveColorMode o) o.color
    o.shape (effectiveQuantize o) (effectiveOctEncode o)
    (o.relativeToCenter || effectiveQuantize o) o.transform o.time E.seedZero

/-- The feature-table property list of the run (lines 115-124). -/
def pipelineFtProps {σ : Type} (E : Externals σ) (o : Options) : List AttributeBuf :=
  featureTablePropsOf o (pipelinePoints E o).1

/-- The batch-table property list of the run (lines 126-129), together
with the random state after it. -/
def pipelineBtProps {σ : Type} (E : Externals σ) (o : Options) :
    List AttributeBuf × σ :=
  if o.perPointProperties then
    getPerPointBatchTableProperties E (pipelinePoints E o).1.noiseValues
      (pipelinePoints E o).2
  else ([], (pipelinePoints E o).2)

/-- The draco step of `createPointCloudTile` (lines 143-160): when draco
is off it contributes an empty buffer and no extension JSON. -/
def pipelineDraco {σ : Type} (E : Externals σ) (o : Options) :
    Except String (List ℤ × Option DracoFtJson × Option DracoBtJson) :=
  if o.draco then
    match dracoEncode E o.pointsLength o.dracoSemantics (pipelineFtProps E o)
        (pipelineBtProps E o).1 with
    | Except.error e => Except.error e
    | Except.ok r => Except.ok (r.1, some r.2.1, some r.2.2)
  else Except.ok ([], none, none)

/-- The successful tail of `createPointCloudTile` (lines 162-237) given
the draco step result `dr`: assemble both sections with draco-covered
names skipped, build both table JSONs, and apply the batched
replacement of lines 219-224. -/
def pipelineOutput {σ : Type} (E : Externals σ) (o : Options)
    (dr : List ℤ × Option DracoFtJson × Option DracoBtJson) : Output × σ :=
  let ftSkip := match dr.2.1 with
    | some j => j.properties.map (fun p => p.1)
    | none => []
  let btSkip := match dr.2.2 with
    | some j => j.properties.map (fun p => p.1)
    | none => []
  let ftAsm := assembleSection ftSkip dr.1 (pipelineFtProps E o)
  let btAsm := assembleSection btSkip [] (pipelineBtProps E o).1
  let featureTableJson := buildFeatureTableJson o
    (ftEntries (pipelineFtProps E o) ftAsm.2) dr.2.1
    (pipelinePoints E o).1.batchLength
  let batchTableJson : BatchTableJson :=
    ⟨btEntries (pipelineBtProps E o).1 btAsm.2, dr.2.2, none⟩
  let batchedStep : (BatchTableJson × List ℤ) × σ :=
    if o.batched then
      getBatchTableForBatchedPoints E (pipelinePoints E o).1.batchLength
        (pipelineBtProps E o).2
    else ((batchTableJson, btAsm.1), (pipelineBtProps E o).2)
  ({ featureTableJson := featureTableJson
     featureTableBinary := ftAsm.1
     batchTableJson := batchedStep.1.1
     batchTableBinary := batchedStep.1.2
     extensionsUsed :=
       if o.draco then some ["3DTILES_draco_point_compression"] else none },
    batchedStep.2)

/-- `createPointCloudTile` (lines 52-238).  The incoming random state is
discarded: line 54 re-seeds the module-global random source with seed 0
before anything else runs, so the whole run is a function of the options
and the externals only.  The draco step can fail, which aborts the whole
call with the encoder error; every other step is total. -/
def createPointCloudTile {σ : Type} (E : Externals σ) (options : Options)
    (_s0 : σ) : Except String Output × σ :=
  match pipelineDraco E options with
  | Except.error e => (Except.error e, (pipelineBtProps E options).2)
  | Except.ok dr =>
    (Except.ok (pipelineOutput E options dr).1, (pipelineOutput E options dr).2)

/-! ## Specification-side definitions and concrete instances used by the
theorems -/

/-- The names of the attributes chosen for compression, as the
specification describes them: the requested semantics (or all
feature-table names) plus all batch-table names. -/
def dracoSelectedNames (dracoSemantics : Option (List String))
    (ftNames btNames : List String) : List String :=
  (match dracoSemantics with | none => ftNames | some ss => ss) ++ btNames

/-- The order-preservation rule exactly as the claim states it
(spec §4.4): sequential encoding iff NORMAL is among the attributes
chosen for compression, or at least one attribute is excluded from
compression while others are included. -/
def specPreserveOrder (dracoSemantics : Option (List String))
    (ftNames btNames : List String) : Prop :=
  "NORMAL" ∈ dracoSelectedNames dracoSemantics ftNames btNames ∨
    ((∃ n ∈ ftNames ++ btNames,
        n ∉ dracoSelectedNames dracoSemantics ftNames btNames) ∧
      dracoSelectedNames dracoSemantics ftNames btNames ≠ [])

/-- Sample RGB attribute (3 one-byte components). -/
def rgbSample : AttributeBuf := ⟨[10, 20, 30], "RGB", .UNSIGNED_BYTE, .VEC3⟩

/-- Sample POSITION attribute (one FLOAT VEC3 point, 12 bytes). -/
def posSample : AttributeBuf :=
  ⟨List.replicate 12 (0 : ℤ), "POSITION", .FLOAT, .VEC3⟩

/-- A concrete instantiation of the external collaborators whose draco
encoder always reports a positive encoded length (5 bytes). -/
def okExternals : Externals Unit :=
  { seedZero := ()
    next := fun s => (0, s)
    fromRandom := fun s => (⟨0, 0, 0, 0⟩, s)
    noise4D := fun _ _ _ _ => 0
    cos := fun _ => 0
    sin := fun _ => 0
    sqrt := fun _ => 1
    pi := 0
    octEncode := fun _ => (0, 0)
    floatLE := fun _ => [0, 0, 0, 0]
    encoder := fun _ _ _ => (5, fun _ => 7) }

/-- A concrete instantiation of the external collaborators whose draco
encoder always reports a non-positive encoded length. -/
def failingExternals : Externals Unit :=
  { okExternals with encoder := fun _ _ _ => (-1, fun _ => 0) }

/-! ## Helper lemmas -/

theorem sizeInBytes_pos (ct : ComponentType) : 0 < ct.sizeInBytes := by
  cases ct <;> simp [ComponentType.sizeInBytes]

theorem alignUp_dvd (len a : ℕ) : a ∣ alignUp len a :=
  dvd_mul_left a _

theorem le_alignUp (len a : ℕ) (ha : 0 < a) : len ≤ alignUp len a := by
  unfold alignUp
  have h := Nat.lt_div_mul_add (a := len + a - 1) ha
  generalize (len + a - 1) / a * a = m at h ⊢
  omega

/-- The integer form of `alignUp` agrees with the literal
`Math.ceil(len / alignment) * alignment` of the source for every
positive alignment. -/
theorem alignUp_eq_ceil (len a : ℕ) (ha : 0 < a) :
    alignUp len a = (⌈(len : ℚ) / (a : ℚ)⌉).toNat * a := by
  have haq : (0 : ℚ) < (a : ℚ) := by exact_mod_cast ha
  have hceil : ⌈(len : ℚ) / (a : ℚ)⌉ = (((len + a - 1) / a : ℕ) : ℤ) := by
    set q : ℕ := (len + a - 1) / a with hqdef
    rw [Int.ceil_eq_iff]
    constructor
    · rw [lt_div_iff₀ haq]
      have h2 : q * a ≤ len + a - 1 := Nat.div_mul_le_self _ _
      have h2q : ((q * a : ℕ) : ℚ) ≤ ((len + a - 1 : ℕ) : ℚ) := by
        exact_mod_cast h2
      have h4 : ((len + a - 1 : ℕ) : ℚ) = (len : ℚ) + (a : ℚ) - 1 := by
        rw [Nat.cast_sub (by omega : 1 ≤ len + a)]
        push_cast
        ring
      rw [h4] at h2q
      push_cast at h2q ⊢
      nlinarith
    · rw [div_le_iff₀ haq]
      have h1 := le_alignUp len a ha
      unfold alignUp at h1
      rw [← hqdef] at h1
      exact_mod_cast h1
  rw [hceil, Int.toNat_natCast, alignUp]

theorem assembleSection_offsets_length (skip : List String)
    (props : List AttributeBuf) : ∀ binary : List ℤ,
    (assembleSection skip binary props).2.length = props.length := by
  induction props with
  | nil => intro binary; simp [assembleSection]
  | cons p ps ih =>
    intro binary
    by_cases h : p.propertyName ∈ skip <;>
      simp [assembleSection, h, ih]

theorem assembleSection_offsets_aligned (skip : List String)
    (props : List AttributeBuf) : ∀ binary : List ℤ,
    ∀ po ∈ props.zip (assembleSection skip binary props).2,
      po.1.componentType.sizeInBytes ∣ po.2 := by
  induction props with
  | nil => intro binary po hpo; simp [assembleSection] at hpo
  | cons p ps ih =>
    intro binary po hpo
    by_cases h : p.propertyName ∈ skip
    · simp only [assembleSection, if_pos h, List.zip_cons_cons, List.mem_cons] at hpo
      rcases hpo with h1 | h1
      · rw [h1]; exact dvd_zero _
      · exact ih binary po h1
    · simp only [assembleSection, if_neg h, List.zip_cons_cons, List.mem_cons] at hpo
      rcases hpo with h1 | h1
      · rw [h1]; exact alignUp_dvd _ _
      · exact ih _ po h1

theorem assembleSection_length (skip : List String) (props : List AttributeBuf) :
    ∀ binary : List ℤ,
    (assembleSection skip binary props).1.length =
      binary.length + appendedBytes skip props +
        sectionPadding skip binary.length props := by
  induction props with
  | nil => intro binary; simp [assembleSection, appendedBytes, sectionPadding]
  | cons p ps ih =>
    intro binary
    by_cases h : p.propertyName ∈ skip
    · simp only [assembleSection, if_pos h, sectionPadding]
      rw [ih binary]
      have hfilter : appendedBytes skip (p :: ps) = appendedBytes skip ps := by
        simp [appendedBytes, List.filter_cons, h]
      rw [hfilter]
    · simp only [assembleSection, if_neg h, sectionPadding]
      rw [ih]
      have hle : binary.length ≤ alignUp binary.length p.componentType.sizeInBytes :=
        le_alignUp _ _ (sizeInBytes_pos _)
      have hfilter : appendedBytes skip (p :: ps) =
          p.buffer.length + appendedBytes skip ps := by
        simp [appendedBytes, List.filter_cons, h]
      rw [hfilter]
      simp only [List.length_append, List.length_replicate]
      have harg : binary.length +
            (alignUp binary.length p.componentType.sizeInBytes - binary.length) +
            p.buffer.length =
          alignUp binary.length p.componentType.sizeInBytes + p.buffer.length := by
        omega
      rw [harg]
      omega

theorem batchFold_le (ids : List ℕ) :
    ∀ acc : ℕ, acc ≤ ids.foldl (fun a b => max (b + 1) a) acc := by
  induction ids with
  | nil => intro acc; simp
  | cons x xs ih =>
    intro acc
    calc acc ≤ max (x + 1) acc := le_max_right _ _
    _ ≤ _ := ih _

theorem mem_lt_batchFold (ids : List ℕ) :
    ∀ acc : ℕ, ∀ b ∈ ids, b + 1 ≤ ids.foldl (fun a b => max (b + 1) a) acc := by
  induction ids with
  | nil => intro acc b hb; simp at hb
  | cons x xs ih =>
    intro acc b hb
    rcases List.mem_cons.mp hb with h1 | h1
    · subst h1
      calc b + 1 ≤ max (b + 1) acc := le_max_left _ _
      _ ≤ _ := batchFold_le xs _
    · exact ih _ b h1

/-! ## Claims -/

/-- C1: for every sequence of uncompressed attribute buffers assembled
into a section (feature table or batch table, both loops share this
shape), each recorded byteOffset is a multiple of the size of its
component type — computed as `ceil(currentLength / alignment) * alignment`
with zero padding inserted — and the final section length equals the
initial length plus the sum of all appended attribute byte lengths plus
exactly the padding computed by that rule; no attribute offset is ever
misaligned. -/
theorem assembleSection_spec (skip : List String) (init : List ℤ)
    (props : List AttributeBuf) :
    (∀ po ∈ props.zip (assembleSection skip init props).2,
        po.1.componentType.sizeInBytes ∣ po.2) ∧
    (assembleSection skip init props).1.length =
      init.length + appendedBytes skip props +
        sectionPadding skip init.length props :=
  ⟨assembleSection_offsets_aligned skip props init,
    assembleSection_length skip props init⟩

/-- Witness for C1: assembling an RGB buffer (3 bytes) then a FLOAT
position buffer places the position at offset 4 (one zero pad byte), and
the section length is 0 + 15 attribute bytes + 1 padding byte. -/
theorem assembleSection_spec_witness :
    ComponentType.FLOAT.sizeInBytes ∣
      ((assembleSection [] [] [rgbSample, posSample]).2.getD 1 0) ∧
    (assembleSection [] [] [rgbSample, posSample]).1.length = 0 + 15 + 1 := by
  have h := assembleSection_spec [] [] [rgbSample, posSample]
  constructor
  · have hm : (posSample, (assembleSection [] [] [rgbSample, posSample]).2.getD 1 0) ∈
        [rgbSample, posSample].zip (assembleSection [] [] [rgbSample, posSample]).2 := by
      decide
    exact h.1 _ hm
  · have h2 := h.2
    have ha : appendedBytes [] [rgbSample, posSample] = 15 := by decide
    have hp : sectionPadding [] (List.length ([] : List ℤ)) [rgbSample, posSample] = 1 := by
      decide
    simp only [List.length_nil] at h2 hp
    omega

/-- C2: two calls to `createPointCloudTile` with identical options
produce identical results — in particular byte-identical
`featureTableBinary` and `batchTableBinary` — whatever random state the
module-global generator is in when each call starts, because line 54
re-seeds the generator with seed 0 at the start of every call (the
simplex noise source is the module-level instance, identical for both
calls). -/
theorem createPointCloudTile_deterministic {σ : Type} (E : Externals σ)
    (options : Options) (s₁ s₂ : σ) :
    createPointCloudTile E options s₁ = createPointCloudTile E options s₂ := rfl

set_option maxRecDepth 8000 in
set_option linter.unreachableTactic false in
set_option linter.unusedTactic false in
set_option linter.unnecessarySeqFocus false in
/-- C3: the BATCH_ID attribute uses the narrowest unsigned integer
component type for `batchLength = max(batchId)+1` values: UNSIGNED_BYTE
iff batchLength ≤ 256, UNSIGNED_SHORT iff 256 < batchLength ≤ 65536,
UNSIGNED_INT iff batchLength > 65536; every batch id is strictly below
batchLength; and concretely batchLength 256 → UNSIGNED_BYTE, 257 →
UNSIGNED_SHORT, 65536 → UNSIGNED_SHORT, 65537 → UNSIGNED_INT. -/
theorem getBatchIds_componentType_spec (ids : List ℕ) :
    (((getBatchIds ids).1.componentType = .UNSIGNED_BYTE ↔
        batchLengthOf ids ≤ 256) ∧
      ((getBatchIds ids).1.componentType = .UNSIGNED_SHORT ↔
        256 < batchLengthOf ids ∧ batchLengthOf ids ≤ 65536) ∧
      ((getBatchIds ids).1.componentType = .UNSIGNED_INT ↔
        65536 < batchLengthOf ids)) ∧
    (∀ b ∈ ids, b + 1 ≤ batchLengthOf ids) ∧
    (getBatchIds (List.range 256)).1.componentType = .UNSIGNED_BYTE ∧
    (getBatchIds (List.range 257)).1.componentType = .UNSIGNED_SHORT ∧
    (getBatchIds [65535]).1.componentType = .UNSIGNED_SHORT ∧
    (getBatchIds [65536]).1.componentType = .UNSIGNED_INT := by
  refine ⟨⟨?_, ?_, ?_⟩, ?_, by decide, by decide, by decide, by decide⟩
  · by_cases h1 : batchLengthOf ids ≤ 256 <;>
      by_cases h2 : batchLengthOf ids ≤ 65536 <;>
      simp +contextual [getBatchIds, h1, h2] <;> omega
  · by_cases h1 : batchLengthOf ids ≤ 256 <;>
      by_cases h2 : batchLengthOf ids ≤ 65536 <;>
      simp +contextual [getBatchIds, h1, h2] <;> omega
  · by_cases h1 : batchLengthOf ids ≤ 256 <;>
      by_cases h2 : batchLengthOf ids ≤ 65536 <;>
      simp +contextual [getBatchIds, h1, h2] <;> omega
  · exact fun b hb => mem_lt_batchFold ids 0 b hb

/-- Witness for C3 at the octant ids the generator actually produces
(0-7): batchLength 8 fits UNSIGNED_BYTE, and id 7 is below it. -/
theorem getBatchIds_componentType_spec_witness :
    (getBatchIds [7, 3]).1.componentType = .UNSIGNED_BYTE ∧
      7 + 1 ≤ batchLengthOf [7, 3] := by
  have h := getBatchIds_componentType_spec [7, 3]
  exact ⟨h.1.1.mpr (by decide), h.2.1 7 (by decide)⟩

/-- C7: RGB565 packing is `(r << 11) + (g << 5) + b`; for in-range
components, blue occupies the low 5 bits, green the middle 6, red the
top 5 of one UNSIGNED_SHORT; full-scale 31/63/31 packs to 0xFFFF and
0/0/0 packs to 0x0000 (encoded little-endian as [255,255] resp. [0,0]). -/
theorem rgb565_packing_spec :
    (∀ r g b : ℤ, 0 ≤ r → r < 32 → 0 ≤ g → g < 64 → 0 ≤ b → b < 32 →
      pack565 r g b % 32 = b ∧ pack565 r g b / 32 % 64 = g ∧
        pack565 r g b / 2048 = r ∧ 0 ≤ pack565 r g b ∧ pack565 r g b < 65536) ∧
    pack565 31 63 31 = 65535 ∧ pack565 0 0 0 = 0 ∧
    (getColorsRGB565 [⟨1, 1, 1, 1⟩]).buffer = [255, 255] ∧
    (getColorsRGB565 [⟨0, 0, 0, 1⟩]).buffer = [0, 0] ∧
    (getColorsRGB565 [⟨1, 1, 1, 1⟩]).componentType = .UNSIGNED_SHORT := by
  refine ⟨?_, by decide, by decide, ?_, ?_, rfl⟩
  · intro r g b hr0 hr hg0 hg hb0 hb
    unfold pack565
    refine ⟨by omega, by omega, by omega, by omega, by omega⟩
  · have h31 : ⌊(1 : ℚ) * 31⌋ = 31 := by norm_num
    have h63 : ⌊(1 : ℚ) * 63⌋ = 63 := by norm_num
    simp only [getColorsRGB565, List.flatMap_cons, List.flatMap_nil, List.append_nil]
    rw [h31, h63]
    decide
  · have h0 : ⌊(0 : ℚ) * 31⌋ = 0 := by norm_num
    have h0g : ⌊(0 : ℚ) * 63⌋ = 0 := by norm_num
    simp only [getColorsRGB565, List.flatMap_cons, List.flatMap_nil, List.append_nil]
    rw [h0, h0g]
    decide

/-- Witness for C7 at r=1, g=2, b=3. -/
theorem rgb565_packing_spec_witness :
    pack565 1 2 3 % 32 = 3 ∧ pack565 1 2 3 / 32 % 64 = 2 ∧
      pack565 1 2 3 / 2048 = 1 := by
  have h := rgb565_packing_spec.1 1 2 3 (by decide) (by decide) (by decide)
    (by decide) (by decide) (by decide)
  exact ⟨h.1, h.2.1, h.2.2.1⟩

/-- C8 counterexample: at alpha = 1 (within the claimed domain [0,1],
and produced by the gradient color strategy) the stored alpha byte is
`floor(1 × 128) = 128`, which is NOT below the 0.5-of-full-scale
threshold (128/255 > 1/2, equivalently ¬(2·128 < 255), and ¬(128 < 128)
against a 256-valued scale). -/
theorem getColorsRGBA_alpha_counterexample :
    (getColorsRGBA [⟨0, 0, 0, 1⟩]).buffer = [0, 0, 0, 128] ∧
      ¬(2 * alphaByte 1 < 255) ∧ ¬(alphaByte 1 < 128) := by
  have ha : alphaByte 1 = 128 := by norm_num [alphaByte]
  refine ⟨?_, by rw [ha]; decide, by rw [ha]; decide⟩
  simp only [getColorsRGBA, List.flatMap_cons, List.flatMap_nil, List.append_nil]
  rw [ha]
  norm_num

/-- C8 (amended): rgba mode stores 4×UNSIGNED_BYTE with red, green,
blue scaled by 255 and alpha scaled by 128 (`floor(alpha × 128)`); for
every alpha in [0,1) the stored alpha is below the 0.5-of-full-scale
threshold, while alpha = 1 stores exactly 128 (marginally above half of
255). -/
theorem getColorsRGBA_spec (colors : List Color)
    (h : ∀ c ∈ colors, 0 ≤ c.alpha ∧ c.alpha < 1) :
    (getColorsRGBA colors).componentType = .UNSIGNED_BYTE ∧
    (getColorsRGBA colors).type = .VEC4 ∧
    (getColorsRGBA colors).buffer = colors.flatMap
      (fun c => [⌊c.red * 255⌋, ⌊c.green * 255⌋, ⌊c.blue * 255⌋,
        alphaByte c.alpha]) ∧
    (∀ c ∈ colors, alphaByte c.alpha < 128 ∧ 2 * alphaByte c.alpha < 255) ∧
    alphaByte 1 = 128 := by
  refine ⟨rfl, rfl, rfl, ?_, by norm_num [alphaByte]⟩
  intro c hc
  obtain ⟨h0, h1⟩ := h c hc
  have hm : c.alpha * 128 < ((128 : ℤ) : ℚ) := by push_cast; nlinarith
  have hfl : alphaByte c.alpha < 128 := Int.floor_lt.mpr hm
  exact ⟨hfl, by omega⟩

/-- Witness for C8 (amended) at alpha = 1/2: stored byte 64 is below
the threshold. -/
theorem getColorsRGBA_spec_witness :
    alphaByte (1 / 2) < 128 ∧ 2 * alphaByte (1 / 2) < 255 := by
  have hdom : ∀ c ∈ [(⟨1, 1, 1, 1 / 2⟩ : Color)], 0 ≤ c.alpha ∧ c.alpha < 1 := by
    intro c hc
    rw [List.mem_singleton] at hc
    subst hc
    norm_num
  have h := getColorsRGBA_spec [⟨1, 1, 1, 1 / 2⟩] hdom
  exact h.2.2.2.1 ⟨1, 1, 1, 1 / 2⟩ (List.mem_singleton.mpr rfl)

/-- C9: for a zero local position the per-point normal is the fixed
fallback (1,0,0) (so the normalizing division never sees a zero
magnitude and cannot produce NaN); for a non-zero local position the
normal is the position normalized, the squared norm is strictly
positive, and hence the magnitude supplied by any square root that is
positive on positives is non-zero. -/
theorem localNormal_spec (sqrt : ℚ → ℚ) (hs : ∀ q : ℚ, 0 < q → 0 < sqrt q)
    (p : Vec3) :
    (p = Vec3.zero → localNormal sqrt p = ⟨1, 0, 0⟩) ∧
    (p ≠ Vec3.zero →
      localNormal sqrt p = normalizeWith sqrt p ∧ 0 < normSq p ∧
        sqrt (normSq p) ≠ 0) := by
  constructor
  · intro h; simp [localNormal, h]
  · intro h
    have hne : p.x ≠ 0 ∨ p.y ≠ 0 ∨ p.z ≠ 0 := by
      by_contra hc
      push_neg at hc
      obtain ⟨hx, hy, hz⟩ := hc
      apply h
      cases p
      simp_all [Vec3.zero]
    have hpos : 0 < normSq p := by
      unfold normSq
      rcases hne with h1 | h1 | h1
      · have : 0 < p.x ^ 2 := by positivity
        nlinarith [sq_nonneg p.y, sq_nonneg p.z]
      · have : 0 < p.y ^ 2 := by positivity
        nlinarith [sq_nonneg p.x, sq_nonneg p.z]
      · have : 0 < p.z ^ 2 := by positivity
        nlinarith [sq_nonneg p.x, sq_nonneg p.y]
    exact ⟨by simp [localNormal, h], hpos, ne_of_gt (hs _ hpos)⟩

/-- Witness for C9: the zero position maps to (1,0,0); the position
(3,0,0) is handed to normalization (instantiated with `id` as square
root, which is positive on positives). -/
theorem localNormal_spec_witness :
    localNormal id Vec3.zero = ⟨1, 0, 0⟩ ∧
      localNormal id ⟨3, 0, 0⟩ = normalizeWith id ⟨3, 0, 0⟩ := by
  have h0 := localNormal_spec id (fun q hq => hq) Vec3.zero
  have h3 := localNormal_spec id (fun q hq => hq) ⟨3, 0, 0⟩
  exact ⟨h0.1 rfl, (h3.2 (by decide)).1⟩

theorem getPropertyByName_name {props : List AttributeBuf} {s : String}
    {p : AttributeBuf} (h : getPropertyByName props s = some p) :
    p.propertyName = s := by
  unfold getPropertyByName at h
  have := List.find?_some h
  simpa using this

theorem getPropertyByName_isSome_iff (props : List AttributeBuf) (s : String) :
    (getPropertyByName props s).isSome = true ↔
      s ∈ props.map AttributeBuf.propertyName := by
  unfold getPropertyByName
  rw [List.find?_isSome]
  simp [List.mem_map, beq_iff_eq]

theorem encodeNormalsFlag_iff (ps : List (Option AttributeBuf)) :
    ((ps.find? (fun p? =>
        (p?.map (fun p => p.propertyName == "NORMAL")).getD false)).isSome = true) ↔
      ∃ p : AttributeBuf, some p ∈ ps ∧ p.propertyName = "NORMAL" := by
  rw [List.find?_isSome]
  constructor
  · rintro ⟨x, hx, hpx⟩
    cases x with
    | none => simp at hpx
    | some p => exact ⟨p, hx, by simpa using hpx⟩
  · rintro ⟨p, hp, hname⟩
    exact ⟨some p, hp, by simp [hname]⟩

theorem length_lt_iff_exists_not_mem {ss ftN : List String}
    (hss : ss.Nodup) (hsub : ∀ s ∈ ss, s ∈ ftN) (hnd : ftN.Nodup) :
    ss.length < ftN.length ↔ ∃ n ∈ ftN, n ∉ ss := by
  constructor
  · intro hlen
    by_contra hc
    push_neg at hc
    have hsub2 : ftN ⊆ ss := fun n hn => hc n hn
    have := (hnd.subperm hsub2).length_le
    omega
  · rintro ⟨n, hn, hnotin⟩
    have hsubE : ss ⊆ ftN.erase n := by
      intro s hs
      have hne : s ≠ n := fun he => hnotin (he ▸ hs)
      exact (List.mem_erase_of_ne hne).mpr (hsub s hs)
    have hle := (hss.subperm hsubE).length_le
    have herase : (ftN.erase n).length = ftN.length - 1 :=
      List.length_erase_of_mem hn
    have hpos : 0 < ftN.length := List.length_pos.mpr (List.ne_nil_of_mem hn)
    omega

theorem dracoEncodeProperties_ok {σ : Type} (E : Externals σ) (n : ℕ)
    (props : List AttributeBuf) (po : Bool)
    (h : 0 < (E.encoder props n po).1) :
    ∃ r, dracoEncodeProperties E n props po = Except.ok r :=
  ⟨_, by unfold dracoEncodeProperties; rw [if_neg (not_le.mpr h)]⟩

theorem pipelineDraco_ok {σ : Type} (E : Externals σ) (o : Options)
    (hpos : ∀ ps n po, 0 < (E.encoder ps n po).1) :
    ∃ dr, pipelineDraco E o = Except.ok dr := by
  cases hd : o.draco with
  | false => exact ⟨([], none, none), by simp [pipelineDraco, hd]⟩
  | true =>
    obtain ⟨r, hr⟩ := dracoEncodeProperties_ok E o.pointsLength
      ((dracoSelectedProperties o.dracoSemantics (pipelineFtProps E o)
        (pipelineBtProps E o).1).reduceOption)
      (dracoPreserveOrder o.dracoSemantics (pipelineFtProps E o)
        (pipelineBtProps E o).1)
      (hpos _ _ _)
    have hde : dracoEncode E o.pointsLength o.dracoSemantics (pipelineFtProps E o)
        (pipelineBtProps E o).1 =
        Except.ok (r.buffer,
          ⟨r.attributeIds.filter
              (fun p => (getPropertyByName (pipelineFtProps E o) p.1).isSome),
            0, r.buffer.length⟩,
          ⟨r.attributeIds.filter
              (fun p => (getPropertyByName (pipelineBtProps E o).1 p.1).isSome)⟩) := by
      simp only [dracoEncode]
      rw [hr]
    have hpd : pipelineDraco E o =
        match dracoEncode E o.pointsLength o.dracoSemantics (pipelineFtProps E o)
            (pipelineBtProps E o).1 with
        | Except.error e => Except.error e
        | Except.ok r => Except.ok (r.1, some r.2.1, some r.2.2) := by
      unfold pipelineDraco
      rw [hd]
      rw [if_pos rfl]
    rw [hpd, hde]
    exact ⟨_, rfl⟩

theorem createPointCloudTile_ok_shape {σ : Type} (E : Externals σ) (o : Options)
    (s : σ) (hpos : ∀ ps n po, 0 < (E.encoder ps n po).1) :
    ∃ dr, pipelineDraco E o = Except.ok dr ∧
      (createPointCloudTile E o s).1 = Except.ok (pipelineOutput E o dr).1 := by
  obtain ⟨dr, hdr⟩ := pipelineDraco_ok E o hpos
  refine ⟨dr, hdr, ?_⟩
  unfold createPointCloudTile
  rw [hdr]

theorem createPointCloudTile_json_shape {σ : Type} (E : Externals σ) (o : Options)
    (s : σ) (out : Output) (h : (createPointCloudTile E o s).1 = Except.ok out) :
    ∃ dr, out = (pipelineOutput E o dr).1 := by
  unfold createPointCloudTile at h
  cases hdr : pipelineDraco E o with
  | error e => rw [hdr] at h; simp at h
  | ok dr =>
    rw [hdr] at h
    simp at h
    exact ⟨dr, h.symm⟩

theorem pipelineOutput_featureTableJson {σ : Type} (E : Externals σ) (o : Options)
    (dr : List ℤ × Option DracoFtJson × Option DracoBtJson) :
    (pipelineOutput E o dr).1.featureTableJson =
      buildFeatureTableJson o
        (ftEntries (pipelineFtProps E o)
          (assembleSection (match dr.2.1 with
              | some j => j.properties.map (fun p => p.1)
              | none => []) dr.1 (pipelineFtProps E o)).2)
        dr.2.1 (pipelinePoints E o).1.batchLength := rfl

theorem ftEntries_names (props : List AttributeBuf) (offsets : List ℕ)
    (h : props.length ≤ offsets.length) :
    (ftEntries props offsets).map TableEntry.name =
      props.map AttributeBuf.propertyName := by
  unfold ftEntries
  rw [List.map_map]
  have hcomp : (TableEntry.name ∘ fun po : AttributeBuf × ℕ =>
      (⟨po.1.propertyName, po.2,
        if po.1.propertyName == "BATCH_ID" then some po.1.componentType else none,
        none⟩ : TableEntry)) =
      (AttributeBuf.propertyName ∘ Prod.fst) := rfl
  rw [hcomp, ← List.map_map, List.map_fst_zip _ _ h]

theorem getBatchIds_name (xs : List ℕ) :
    (getBatchIds xs).1.propertyName = "BATCH_ID" := by
  simp only [getBatchIds]
  split_ifs <;> rfl

theorem getPoints_colors_rgb {σ : Type} (E : Externals σ) (n : ℕ) (radius : ℚ)
    (strategy : ColorStrategy) (shape : Shape) (q oe sc : Bool) (tr : TransformM)
    (time : ℚ) (s : σ) :
    ∃ cs, (getPoints E n radius ColorMode.rgb strategy shape q oe sc tr
      time s).1.colors = some (getColorsRGB cs) :=
  ⟨_, rfl⟩

theorem pipelineFtProps_names {σ : Type} (E : Externals σ) (o : Options)
    (hd : o.draco = true) (hcm : o.colorMode = ColorMode.rgb565) :
    (pipelineFtProps E o).map AttributeBuf.propertyName =
      ["POSITION", "RGB"] ++ (if o.generateNormals then ["NORMAL"] else []) ++
        (if o.batched then ["BATCH_ID"] else []) := by
  have hcm2 : effectiveColorMode o = ColorMode.rgb := by
    simp [effectiveColorMode, hcm, hd]
  have hq : effectiveQuantize o = false := by simp [effectiveQuantize, hd]
  have hoe : effectiveOctEncode o = false := by simp [effectiveOctEncode, hd]
  unfold pipelineFtProps pipelinePoints
  rw [hcm2, hq, hoe]
  by_cases hg : o.generateNormals <;> by_cases hb : o.batched <;>
    simp [getPoints, featureTablePropsOf, getPositions, getNormals,
      getBatchIds_name, getColorsRGB, hg, hb]

/-- C4 counterexample: with an empty `dracoSemantics` list, no
batch-table properties and the default feature-table properties
(POSITION and RGB), nothing at all is chosen for compression, so the
claimed rule ("NORMAL among the compressed attributes, or some attribute
excluded while others are included") demands non-sequential encoding —
yet the code's count-based test (`dracoProperties.length <
featureTableProperties.length + batchTableProperties.length`) still
selects order-preserving (sequential) encoding. -/
theorem dracoPreserveOrder_counterexample :
    dracoPreserveOrder (some []) [posSample, rgbSample] [] = true ∧
      ¬ specPreserveOrder (some []) ["POSITION", "RGB"] [] := by
  constructor
  · decide
  · unfold specPreserveOrder dracoSelectedNames
    decide

/-- C4 (amended): for every valid configuration (duplicate-free
semantics naming existing feature-table attributes, duplicate-free
feature-table names, and feature/batch-table names disjoint — all true
in the generator), the adapter selects order-preserving (sequential)
encoding exactly when NORMAL is among the attributes chosen for
compression or at least one feature-table or batch-table attribute is
excluded from compression — whether or not any other attribute remains
included (an empty chosen set still forces sequential encoding). -/
theorem dracoPreserveOrder_spec (sem : Option (List String))
    (ftProps btProps : List AttributeBuf)
    (hftnd : (ftProps.map AttributeBuf.propertyName).Nodup)
    (hsem : ∀ ss, sem = some ss → ss.Nodup ∧
      ∀ s ∈ ss, s ∈ ftProps.map AttributeBuf.propertyName)
    (hdisj : ∀ n ∈ ftProps.map AttributeBuf.propertyName,
      n ∉ btProps.map AttributeBuf.propertyName) :
    dracoPreserveOrder sem ftProps btProps = true ↔
      ("NORMAL" ∈ dracoSelectedNames sem (ftProps.map AttributeBuf.propertyName)
          (btProps.map AttributeBuf.propertyName) ∨
        ∃ n ∈ ftProps.map AttributeBuf.propertyName ++
            btProps.map AttributeBuf.propertyName,
          n ∉ dracoSelectedNames sem (ftProps.map AttributeBuf.propertyName)
            (btProps.map AttributeBuf.propertyName)) := by
  simp only [dracoPreserveOrder]
  rw [Bool.or_eq_true, decide_eq_true_eq, encodeNormalsFlag_iff]
  cases sem with
  | none =>
    have hlen : (dracoSelectedProperties none ftProps btProps).length =
        ftProps.length + btProps.length := by
      simp [dracoSelectedProperties]
    have hmem : ∀ p : AttributeBuf,
        some p ∈ dracoSelectedProperties none ftProps btProps ↔
          p ∈ ftProps ∨ p ∈ btProps := by
      intro p
      simp [dracoSelectedProperties]
    have hsel : dracoSelectedNames none (ftProps.map AttributeBuf.propertyName)
        (btProps.map AttributeBuf.propertyName) =
        ftProps.map AttributeBuf.propertyName ++
          btProps.map AttributeBuf.propertyName := rfl
    constructor
    · rintro (⟨p, hp, hname⟩ | hlt)
      · left
        rw [hsel, List.mem_append]
        rcases (hmem p).mp hp with h | h
        · exact Or.inl (hname ▸ List.mem_map_of_mem _ h)
        · exact Or.inr (hname ▸ List.mem_map_of_mem _ h)
      · rw [hlen] at hlt
        omega
    · rintro (hn | ⟨n, hnmem, hnot⟩)
      · rw [hsel] at hn
        left
        rcases List.mem_append.mp hn with h | h
        · obtain ⟨p, hp, hpe⟩ := List.mem_map.mp h
          exact ⟨p, (hmem p).mpr (Or.inl hp), hpe⟩
        · obtain ⟨p, hp, hpe⟩ := List.mem_map.mp h
          exact ⟨p, (hmem p).mpr (Or.inr hp), hpe⟩
      · rw [hsel] at hnot
        exact absurd hnmem hnot
  | some ss =>
    obtain ⟨hssnd, hsub⟩ := hsem ss rfl
    have hsel : dracoSelectedNames (some ss) (ftProps.map AttributeBuf.propertyName)
        (btProps.map AttributeBuf.propertyName) =
        ss ++ btProps.map AttributeBuf.propertyName := rfl
    have henc : (∃ p : AttributeBuf,
        some p ∈ dracoSelectedProperties (some ss) ftProps btProps ∧
          p.propertyName = "NORMAL") ↔
        "NORMAL" ∈ ss ++ btProps.map AttributeBuf.propertyName := by
      constructor
      · rintro ⟨p, hp, hname⟩
        simp only [dracoSelectedProperties, List.mem_append, List.mem_map] at hp
        rcases hp with ⟨s, hs, hlook⟩ | ⟨q, hq, hqe⟩
        · have hps : p.propertyName = s := getPropertyByName_name hlook
          have hsN : s = "NORMAL" := by rw [← hps, hname]
          exact List.mem_append.mpr (Or.inl (hsN ▸ hs))
        · have hqp : q = p := Option.some.inj hqe
          subst hqp
          exact List.mem_append.mpr (Or.inr (hname ▸ List.mem_map_of_mem _ hq))
      · intro hn
        rcases List.mem_append.mp hn with h | h
        · have hft : "NORMAL" ∈ ftProps.map AttributeBuf.propertyName := hsub _ h
          have hks : (getPropertyByName ftProps "NORMAL").isSome = true :=
            (getPropertyByName_isSome_iff _ _).mpr hft
          obtain ⟨p, hp⟩ := Option.isSome_iff_exists.mp hks
          refine ⟨p, ?_, getPropertyByName_name hp⟩
          simp only [dracoSelectedProperties, List.mem_append, List.mem_map]
          exact Or.inl ⟨"NORMAL", h, hp⟩
        · obtain ⟨p, hp, hpe⟩ := List.mem_map.mp h
          refine ⟨p, ?_, hpe⟩
          simp only [dracoSelectedProperties, List.mem_append, List.mem_map]
          exact Or.inr ⟨p, hp, rfl⟩
    have hlen2 : ((dracoSelectedProperties (some ss) ftProps btProps).length <
        ftProps.length + btProps.length) ↔
        ss.length < (ftProps.map AttributeBuf.propertyName).length := by
      simp only [dracoSelectedProperties, List.length_append, List.length_map]
      omega
    have hex : ss.length < (ftProps.map AttributeBuf.propertyName).length ↔
        ∃ n ∈ ftProps.map AttributeBuf.propertyName, n ∉ ss :=
      length_lt_iff_exists_not_mem hssnd hsub hftnd
    have hex2 : (∃ n ∈ ftProps.map AttributeBuf.propertyName, n ∉ ss) ↔
        ∃ n ∈ ftProps.map AttributeBuf.propertyName ++
            btProps.map AttributeBuf.propertyName,
          n ∉ dracoSelectedNames (some ss) (ftProps.map AttributeBuf.propertyName)
            (btProps.map AttributeBuf.propertyName) := by
      rw [hsel]
      constructor
      · rintro ⟨n, hn, hns⟩
        refine ⟨n, List.mem_append.mpr (Or.inl hn), ?_⟩
        rw [List.mem_append]
        push_neg
        exact ⟨hns, hdisj n hn⟩
      · rintro ⟨n, hn, hns⟩
        rw [List.mem_append] at hn hns
        push_neg at hns
        rcases hn with h | h
        · exact ⟨n, h, hns.1⟩
        · exact absurd h hns.2
    rw [henc, hlen2, hex, hex2, hsel]

/-- Witness for C4 (amended): compressing only POSITION out of
{POSITION, RGB} excludes RGB, so sequential encoding is selected. -/
theorem dracoPreserveOrder_spec_witness :
    dracoPreserveOrder (some ["POSITION"]) [posSample, rgbSample] [] = true := by
  have h := dracoPreserveOrder_spec (some ["POSITION"]) [posSample, rgbSample] []
    (by decide)
    (by
      intro ss hss
      obtain rfl := Option.some.inj hss
      exact ⟨by decide, by decide⟩)
    (by intro n hn; simp)
  exact h.mpr (Or.inr ⟨"RGB", by decide, by decide⟩)

/-- C5: the draco encoding step fails with exactly the error
`Error: Encoding Failed.` when the external compressor reports a
non-positive encoded length, and that failure aborts the whole
generation call with the same error and no partial output; when the
compressor reports a positive length the step succeeds, the returned
blob has exactly that length, and the whole generation call returns a
complete output. -/
theorem dracoEncodeProperties_failure_spec {σ : Type} (E : Externals σ)
    (o : Options) (s : σ) (pointsLength : ℕ) (props : List AttributeBuf)
    (preserveOrder : Bool) :
    ((E.encoder props pointsLength preserveOrder).1 ≤ 0 →
      dracoEncodeProperties E pointsLength props preserveOrder =
        Except.error "Error: Encoding Failed.") ∧
    (0 < (E.encoder props pointsLength preserveOrder).1 →
      ∃ r, dracoEncodeProperties E pointsLength props preserveOrder =
          Except.ok r ∧
        r.buffer.length = (E.encoder props pointsLength preserveOrder).1.toNat) ∧
    (o.draco = true →
      (∀ ps n po, (E.encoder ps n po).1 ≤ 0) →
      (createPointCloudTile E o s).1 = Except.error "Error: Encoding Failed.") ∧
    (o.draco = true →
      (∀ ps n po, 0 < (E.encoder ps n po).1) →
      ∃ out, (createPointCloudTile E o s).1 = Except.ok out) := by
  refine ⟨?_, ?_, ?_, ?_⟩
  · intro h
    unfold dracoEncodeProperties
    rw [if_pos h]
  · intro h
    refine ⟨⟨(List.range (E.encoder props pointsLength preserveOrder).1.toNat).map
        (E.encoder props pointsLength preserveOrder).2,
      props.enum.map (fun ip => (ip.2.propertyName, ip.1))⟩, ?_, ?_⟩
    · unfold dracoEncodeProperties
      rw [if_neg (not_le.mpr h)]
    · simp
  · intro hd hneg
    have hx : dracoEncodeProperties E o.pointsLength
        ((dracoSelectedProperties o.dracoSemantics (pipelineFtProps E o)
          (pipelineBtProps E o).1).reduceOption)
        (dracoPreserveOrder o.dracoSemantics (pipelineFtProps E o)
          (pipelineBtProps E o).1) =
        Except.error "Error: Encoding Failed." := by
      unfold dracoEncodeProperties
      rw [if_pos (hneg _ _ _)]
    have hde : dracoEncode E o.pointsLength o.dracoSemantics (pipelineFtProps E o)
        (pipelineBtProps E o).1 = Except.error "Error: Encoding Failed." := by
      simp only [dracoEncode]
      rw [hx]
    have hpde : pipelineDraco E o = Except.error "Error: Encoding Failed." := by
      unfold pipelineDraco
      rw [hd]
      rw [if_pos rfl, hde]
    unfold createPointCloudTile
    rw [hpde]
  · intro hd hpos
    obtain ⟨dr, hdr, hok⟩ := createPointCloudTile_ok_shape E o s hpos
    exact ⟨_, hok⟩

/-- Witness for C5: a compressor reporting length -1 aborts the whole
call with the encoding error, and a compressor reporting length 5
yields a complete output with a 5-byte blob from the encoding step. -/
theorem dracoEncodeProperties_failure_spec_witness :
    (createPointCloudTile failingExternals { draco := true } ()).1 =
      Except.error "Error: Encoding Failed." ∧
    (∃ r, dracoEncodeProperties okExternals 0 [] false = Except.ok r ∧
      r.buffer.length = (5 : ℤ).toNat) ∧
    (∃ out, (createPointCloudTile okExternals { draco := true } ()).1 =
      Except.ok out) := by
  refine ⟨?_, ?_, ?_⟩
  · exact (dracoEncodeProperties_failure_spec failingExternals { draco := true }
      () 0 [] false).2.2.1 rfl (fun ps n po => by simp [failingExternals])
  · exact (dracoEncodeProperties_failure_spec okExternals { draco := true }
      () 0 [] false).2.1 (by simp [okExternals])
  · exact (dracoEncodeProperties_failure_spec okExternals { draco := true }
      () 0 [] false).2.2.2 rfl (fun ps n po => by simp [okExternals])

/-- C6 counterexample: with quantizePositions = true AND draco = true
(a successful run with the default relativeToCenter = true), line 67
silently disables quantization, so the feature-table JSON carries
RTC_CENTER and neither QUANTIZED_VOLUME_OFFSET nor
QUANTIZED_VOLUME_SCALE — the opposite of what the claim states for
every options object with quantizePositions = true. -/
theorem quantize_draco_counterexample :
    ((createPointCloudTile okExternals
        { quantizePositions := true, draco := true } ()).1.map
      (fun out => (out.featureTableJson.QUANTIZED_VOLUME_OFFSET,
        out.featureTableJson.QUANTIZED_VOLUME_SCALE,
        out.featureTableJson.RTC_CENTER.isSome))) =
      Except.ok (none, none, true) := by
  obtain ⟨dr, hdr, hok⟩ := createPointCloudTile_ok_shape okExternals
    { quantizePositions := true, draco := true } ()
    (fun ps n po => by simp [okExternals])
  rw [hok]
  simp only [Except.map]
  rw [pipelineOutput_featureTableJson]
  have he : effectiveQuantize { quantizePositions := true, draco := true } = false :=
    rfl
  simp [buildFeatureTableJson, he]

/-- C6 (amended): for every options object with quantizePositions = true
AND draco = false (draco silently disables quantization, line 67), every
successful run's feature-table JSON contains QUANTIZED_VOLUME_OFFSET and
QUANTIZED_VOLUME_SCALE and omits RTC_CENTER; and for every options
object whatsoever the two field groups are never both present. -/
theorem quantize_featureTable_spec {σ : Type} (E : Externals σ) (o : Options)
    (s : σ) (out : Output) (h : (createPointCloudTile E o s).1 = Except.ok out) :
    (o.quantizePositions = true → o.draco = false →
      out.featureTableJson.QUANTIZED_VOLUME_OFFSET.isSome = true ∧
      out.featureTableJson.QUANTIZED_VOLUME_SCALE.isSome = true ∧
      out.featureTableJson.RTC_CENTER = none) ∧
    ¬(out.featureTableJson.QUANTIZED_VOLUME_OFFSET.isSome = true ∧
      out.featureTableJson.RTC_CENTER.isSome = true) := by
  obtain ⟨dr, rfl⟩ := createPointCloudTile_json_shape E o s out h
  rw [pipelineOutput_featureTableJson]
  constructor
  · intro hq hd
    have he : effectiveQuantize o = true := by
      simp [effectiveQuantize, hq, hd]
    simp [buildFeatureTableJson, he]
  · rintro ⟨h1, h2⟩
    by_cases he : effectiveQuantize o = true
    · simp [buildFeatureTableJson, he] at h2
    · have he2 : effectiveQuantize o = false := by
        cases hb : effectiveQuantize o
        · rfl
        · exact absurd hb he
      simp [buildFeatureTableJson, he2] at h1

/-- Witness for C6 (amended): a concrete successful run with
quantizePositions = true and draco = false carries both quantization
fields and no RTC_CENTER. -/
theorem quantize_featureTable_spec_witness :
    ((createPointCloudTile okExternals { quantizePositions := true } ()).1.map
      (fun out => (out.featureTableJson.QUANTIZED_VOLUME_OFFSET.isSome,
        out.featureTableJson.QUANTIZED_VOLUME_SCALE.isSome,
        out.featureTableJson.RTC_CENTER))) =
      Except.ok (true, true, none) := by
  obtain ⟨dr, hdr, hok⟩ := createPointCloudTile_ok_shape okExternals
    { quantizePositions := true } () (fun ps n po => by simp [okExternals])
  have h := quantize_featureTable_spec okExternals { quantizePositions := true }
    () _ hok
  obtain ⟨hq1, hq2, hq3⟩ := h.1 rfl rfl
  rw [hok]
  simp only [Except.map]
  rw [hq1, hq2, hq3]

/-- C10: when draco = true and colorMode = rgb565, the color mode is
silently replaced by rgb (lines 73-75): the effective color mode is rgb,
the color attribute of the run is the RGB encoder's output (UNSIGNED_BYTE
VEC3), and every successful output's feature-table JSON lists an RGB
property and never an RGB565 property — RGB565 encoding and compression
never combine. -/
theorem rgb565_draco_spec {σ : Type} (E : Externals σ) (o : Options) (s : σ)
    (out : Output) (hd : o.draco = true) (hcm : o.colorMode = ColorMode.rgb565)
    (h : (createPointCloudTile E o s).1 = Except.ok out) :
    effectiveColorMode o = ColorMode.rgb ∧
    (∃ cs, (pipelinePoints E o).1.colors = some (getColorsRGB cs)) ∧
    (∀ cs, (getColorsRGB cs).componentType = ComponentType.UNSIGNED_BYTE ∧
      (getColorsRGB cs).type = AttrType.VEC3) ∧
    "RGB" ∈ out.featureTableJson.properties.map TableEntry.name ∧
    "RGB565" ∉ out.featureTableJson.properties.map TableEntry.name := by
  have hcm2 : effectiveColorMode o = ColorMode.rgb := by
    simp [effectiveColorMode, hcm, hd]
  have hnames : out.featureTableJson.properties.map TableEntry.name =
      ["POSITION", "RGB"] ++ (if o.generateNormals then ["NORMAL"] else []) ++
        (if o.batched then ["BATCH_ID"] else []) := by
    obtain ⟨dr, rfl⟩ := createPointCloudTile_json_shape E o s out h
    rw [pipelineOutput_featureTableJson]
    have hprop : (buildFeatureTableJson o
        (ftEntries (pipelineFtProps E o)
          (assembleSection (match dr.2.1 with
              | some j => j.properties.map (fun p => p.1)
              | none => []) dr.1 (pipelineFtProps E o)).2)
        dr.2.1 (pipelinePoints E o).1.batchLength).properties =
        ftEntries (pipelineFtProps E o)
          (assembleSection (match dr.2.1 with
              | some j => j.properties.map (fun p => p.1)
              | none => []) dr.1 (pipelineFtProps E o)).2 := rfl
    rw [hprop]
    rw [ftEntries_names _ _ (by rw [assembleSection_offsets_length])]
    exact pipelineFtProps_names E o hd hcm
  refine ⟨hcm2, ?_, fun cs => ⟨rfl, rfl⟩, ?_, ?_⟩
  · unfold pipelinePoints
    rw [hcm2]
    exact getPoints_colors_rgb _ _ _ _ _ _ _ _ _ _ _
  · rw [hnames]
    simp
  · rw [hnames]
    by_cases hg : o.generateNormals <;> by_cases hb : o.batched <;>
      simp [hg, hb]

/-- Witness for C10: a concrete successful run with draco = true and
colorMode = rgb565 has no RGB565 property in its feature-table JSON, and
the effective color mode is rgb. -/
theorem rgb565_draco_spec_witness :
    ((createPointCloudTile okExternals
        { draco := true, colorMode := ColorMode.rgb565 } ()).1.map
      (fun out => decide
        ("RGB565" ∈ out.featureTableJson.properties.map TableEntry.name))) =
      Except.ok false ∧
    effectiveColorMode { draco := true, colorMode := ColorMode.rgb565 } =
      ColorMode.rgb := by
  obtain ⟨dr, hdr, hok⟩ := createPointCloudTile_ok_shape okExternals
    { draco := true, colorMode := ColorMode.rgb565 } ()
    (fun ps n po => by simp [okExternals])
  have h := rgb565_draco_spec okExternals
    { draco := true, colorMode := ColorMode.rgb565 } () _ rfl rfl hok
  refine ⟨?_, h.1⟩
  rw [hok]
  simp only [Except.map]
  rw [decide_eq_false h.2.2.2.2]

end PC
